import Mathlib

/-!
Verification development for the task-decomposition core of the repository:
the NLP request interpreter (`task-decomposition-nlp.ts`), the prompt
processor (`promptProcessing`), and the task extractor
(`task-extraction.ts` / `task-extraction-continued.ts`).

Strings are modelled with Lean `String` (a packed `List Char`); JavaScript
string operations (`indexOf`, `substring`, `trim`, `includes`, `join`,
`toLowerCase`) are given explicit executable models over the character
list.  `toLowerCase` is modelled as ASCII case folding, which agrees with
JavaScript on the ASCII inputs the keyword tables use.  JavaScript numbers
are modelled with `ℚ` where fractional weights occur (complexity uses a
0.5-per-entity weight) and with `ℤ`/`ℕ` where all arithmetic is integral;
all values involved are small multiples of one half, on which IEEE double
arithmetic is exact.  `Date.now()` is modelled as an arbitrary clock
function `Nat → Nat` applied to a running call counter, one tick per call,
in JavaScript evaluation order.
-/

namespace Coder

/-! ## JavaScript string primitives -/

/-- ASCII lower-casing of a character, the model of `toLowerCase` per char. -/
def lowerChar (c : Char) : Char :=
  if 65 ≤ c.toNat ∧ c.toNat ≤ 90 then Char.ofNat (c.toNat + 32) else c

/-- Model of `String.prototype.toLowerCase` (ASCII range). -/
def lowerStr (s : String) : String := String.mk (s.data.map lowerChar)

/-- Pattern `pat` occurs in `s` starting at character position `i`. -/
def OccursAt (s pat : List Char) (i : Nat) : Prop :=
  pat = (s.drop i).take pat.length

instance (s pat : List Char) (i : Nat) : Decidable (OccursAt s pat i) := by
  unfold OccursAt; infer_instance

/-- Bounded linear search used to model `String.prototype.indexOf`:
try positions `i, i+1, ...` while fuel lasts. -/
def searchFrom (s pat : List Char) : Nat → Nat → Option Nat
  | _, 0 => none
  | i, f + 1 =>
    if OccursAt s pat i then some i else searchFrom s pat (i + 1) f

/-- Model of `s.indexOf(pat, start)` (`none` is JavaScript's `-1`). -/
def jsIndexOf (s pat : List Char) (start : Nat) : Option Nat :=
  searchFrom s pat start (s.length + 1 - start)

/-- Model of `s.includes(sub)` on strings. -/
def strContains (s sub : String) : Bool :=
  (jsIndexOf s.data sub.data 0).isSome

/-- Model of `s.startsWith(p)`. -/
def strStartsWith (s p : String) : Bool :=
  decide (p.data = s.data.take p.data.length)

/-- Model of `s.endsWith(p)`. -/
def strEndsWith (s p : String) : Bool :=
  decide (p.data = s.data.drop (s.data.length - p.data.length))

/-- Model of `String.prototype.trim` on a character list. -/
def jsTrim (s : List Char) : List Char :=
  ((s.dropWhile Char.isWhitespace).reverse.dropWhile Char.isWhitespace).reverse

/-- Model of `Array.prototype.join(' ')`. -/
def joinSp : List String → String
  | [] => ""
  | [s] => s
  | s :: rest => s ++ " " ++ joinSp rest

/-! ## Data model (`task-decomposition-nlp.ts`, `promptProcessing`) -/

/-- The four named-entity buckets built by `analyzePrompt`
(`technologies`, `actions`, `nouns`, `numbers`, in insertion order). -/
structure Entities where
  technologies : List String
  actions : List String
  nouns : List String
  numbers : List String
deriving DecidableEq

/-- Model of `Object.values` of the entity record, in key insertion order. -/
def entityValues (e : Entities) : List (List String) :=
  [e.technologies, e.actions, e.nouns, e.numbers]

/-- Structure `TokenizedPrompt` from `task-decomposition-nlp.ts`. -/
structure TokenizedPrompt where
  tokens : List String
  tags : List String
  entities : Entities
deriving DecidableEq

/-- Structure `CodeContext` from `task-decomposition-nlp.ts`. -/
structure CodeContext where
  language : Option String
  framework : Option String
  platform : Option String
  dependencies : List String
  constraints : List String
deriving DecidableEq

/-! ## Request interpreter (`extractCodeContext`) -/

def languages : List String :=
  ["javascript", "typescript", "python", "java", "c#", "ruby", "go"]

def frameworks : List String :=
  ["react", "angular", "vue", "express", "django", "spring", "flask"]

def platforms : List String :=
  ["node", "browser", "web", "mobile", "desktop", "server"]

def constraintPhrases : List String :=
  ["must be", "should be", "needs to be", "required to"]

/-- The predicate `lang => technologies.includes(lang) ||
technologies.includes(lang + "programming")` from `extractCodeContext`. -/
def languageMatch (technologies : List String) (lang : String) : Bool :=
  technologies.contains lang || technologies.contains (lang ++ "programming")

/-- The lower-cased, space-joined token text used for constraint scanning:
`tokenizedPrompt.tokens.join(' ').toLowerCase()`. -/
def joinTokensLower (tokens : List String) : List Char :=
  (lowerStr (joinSp tokens)).data

/-- One iteration of the constraint `forEach` body: locate the phrase, then
the next `'.'`, and capture the trimmed span between them. -/
def constraintFor (text : List Char) (phrase : String) : Option String :=
  match jsIndexOf text phrase.data 0 with
  | some index =>
    match jsIndexOf text ['.'] index with
    | some endIndex =>
      some (String.mk (jsTrim
        ((text.drop (index + phrase.data.length)).take
          (endIndex - (index + phrase.data.length)))))
    | none => none
  | none => none

/-- Function `extractCodeContext` from `task-decomposition-nlp.ts`. -/
def extractCodeContext (tp : TokenizedPrompt) : CodeContext :=
  let technologies := tp.entities.technologies.map lowerStr
  let language := languages.find? (fun lang => languageMatch technologies lang)
  let framework := frameworks.find? (fun fw => technologies.contains fw)
  let platform := platforms.find? (fun pf => technologies.contains pf)
  let dependencies :=
    ((tp.entities.technologies.filter
        (fun tech => !(languages.contains (lowerStr tech)))).filter
        (fun tech => !(frameworks.contains (lowerStr tech)))).filter
        (fun tech => !(platforms.contains (lowerStr tech)))
  let text := joinTokensLower tp.tokens
  let constraints := constraintPhrases.filterMap (constraintFor text)
  { language := language, framework := framework, platform := platform,
    dependencies := dependencies, constraints := constraints }

/-! ## Scoring (`promptProcessing`: `calculateComplexity`,
`calculatePriority`, `estimateRequiredTokens`) -/

def complexityKeywords : List String :=
  ["async", "concurrent", "parallel", "optimize", "secure",
   "scale", "distributed", "enterprise", "integration"]

/-- Function `calculateComplexity`: 0.5 per entity, +2 per complexity-keyword token,
clamped by `Math.min(Math.max(complexity, 1), 10)`. -/
def calculateComplexity (tp : TokenizedPrompt) : ℚ :=
  let complexity : ℚ := 0
  let complexity := complexity +
    ((entityValues tp.entities).foldl (fun sum arr => sum + arr.length) 0 : ℕ) * (1 / 2 : ℚ)
  let complexity := complexity +
    ((tp.tokens.filter (fun token => complexityKeywords.contains (lowerStr token))).length : ℚ) * 2
  min (max complexity 1) 10

def urgentKeywords : List String :=
  ["urgent", "asap", "critical", "important", "priority"]

def lowPriorityKeywords : List String :=
  ["experimental", "optional", "nice to have"]

/-- Function `calculatePriority`: base 5, +2 if an urgent-keyword token is present,
−2 if a low-priority-keyword token is present, clamped to [1,10]. -/
def calculatePriority (tp : TokenizedPrompt) : ℤ :=
  let priority : ℤ := 5
  let priority :=
    if tp.tokens.any (fun token => urgentKeywords.contains (lowerStr token))
    then priority + 2 else priority
  let priority :=
    if tp.tokens.any (fun token => lowPriorityKeywords.contains (lowerStr token))
    then priority - 2 else priority
  min (max priority 1) 10

def tokenComplexityIndicators : List String :=
  ["async", "await", "try", "catch", "class", "interface",
   "extends", "implements", "generic", "template"]

/-- Function `estimateRequiredTokens` from `promptProcessing`. -/
def estimateRequiredTokens (tp : TokenizedPrompt) : ℕ :=
  let baseTokens := 500
  let additionalTokens := 0
  let additionalTokens := additionalTokens +
    (entityValues tp.entities).foldl (fun sum arr => sum + arr.length * 100) 0
  let additionalTokens := additionalTokens + tp.entities.technologies.length * 200
  let additionalTokens := additionalTokens +
    (tp.tokens.filter (fun token => tokenComplexityIndicators.contains (lowerStr token))).length * 150
  baseTokens + additionalTokens

/-! ## Prompt processing and validation -/

/-- Structure `ProcessedPrompt` from `promptProcessing`. -/
structure ProcessedPrompt where
  originalPrompt : String
  tokenized : TokenizedPrompt
  context : CodeContext
  complexity : ℚ
  priority : ℤ
  estimatedTokens : ℕ
deriving DecidableEq

/-- Function `processPrompt`, parameterised by the (deterministic, external)
lexical analysis result for the prompt. -/
def processPrompt (prompt : String) (tokenized : TokenizedPrompt) : ProcessedPrompt :=
  { originalPrompt := prompt
    tokenized := tokenized
    context := extractCodeContext tokenized
    complexity := calculateComplexity tokenized
    priority := calculatePriority tokenized
    estimatedTokens := estimateRequiredTokens tokenized }

/-- Structure `PromptValidationResult` from `promptProcessing`. -/
structure PromptValidationResult where
  isValid : Bool
  errors : List String
  warnings : List String
  suggestions : List String
deriving DecidableEq

/-- Modelled from the spec: the external `natural` word tokenizer used by
`suggestCompletion` is not part of the repository sources; per the spec the
tokenization "splits on whitespace/punctuation boundaries", which we model
as splitting on maximal runs of non-alphanumeric characters. -/
def wordSplit : List Char → List Char → List (List Char)
  | [], acc => [acc.reverse]
  | c :: cs, acc =>
    if c.isAlphanum then wordSplit cs (c :: acc)
    else acc.reverse :: wordSplit cs []

def wordTokenize (s : String) : List String :=
  ((wordSplit s.data []).filter (fun w => w ≠ [])).map String.mk

def commonPhrases : List String :=
  ["create a function", "implement a class", "generate an interface",
   "build a component", "develop an API", "write a test"]

/-- Function `suggestCompletion` from `task-decomposition-nlp.ts`. -/
def suggestCompletion (text : String) : List String :=
  let tokens := wordTokenize text
  if tokens.length < 2 then []
  else (commonPhrases.filter (fun phrase => strStartsWith phrase text)).take 5

def commonLanguages : List String :=
  ["javascript", "typescript", "python", "java", "c#"]

/-- Function `validatePrompt` from `promptProcessing`: sequential mutation of the
result record, translated as a chain of updates. -/
def validatePrompt (prompt : String) : PromptValidationResult :=
  let r : PromptValidationResult :=
    { isValid := true, errors := [], warnings := [], suggestions := [] }
  let r :=
    if prompt.length < 10 then
      { r with errors := r.errors ++ ["Prompt is too short. Please provide more details."],
               isValid := false }
    else r
  let r :=
    if prompt.length > 1000 then
      { r with warnings := r.warnings ++
          ["Prompt is very long. Consider breaking it into smaller requests."] }
    else r
  let r :=
    if !(strContains prompt "function") && !(strContains prompt "class") &&
       !(strContains prompt "component") && !(strContains prompt "interface") then
      { r with warnings := r.warnings ++
          ["Consider specifying the type of code you want to generate (function, class, component, etc.)."] }
    else r
  let hasLanguage := commonLanguages.any (fun lang => strContains (lowerStr prompt) lang)
  let r :=
    if !hasLanguage then
      { r with suggestions := r.suggestions ++ ["Consider specifying the programming language."] }
    else r
  let r :=
    if strEndsWith prompt "..." || strEndsWith prompt "create" || strEndsWith prompt "generate" then
      { r with suggestions := r.suggestions ++
          (suggestCompletion prompt).map (fun c => "Did you mean to say \"" ++ c ++ "\"?") }
    else r
  r

/-! ## Task extraction (`task-extraction.ts`, `task-extraction-continued.ts`) -/

inductive TaskType where
  | code_generation
  | documentation
  | testing
  | optimization
  | security
  | deployment
deriving DecidableEq

/-- A value stored in a task's `context: Record<string, any>` map:
either an (optional) string or a string list. -/
inductive CtxVal where
  | str (v : Option String)
  | strs (v : List String)
deriving DecidableEq

/-- Structure `Task` from `task-extraction.ts`. -/
structure Task where
  id : String
  type : TaskType
  description : String
  dependencies : List String
  estimatedComplexity : ℚ
  context : List (String × CtxVal)
deriving DecidableEq

/-- The clock behind `Date.now()`: call number ↦ returned timestamp. -/
def Clock := Nat → Nat

/-- JavaScript string interpolation of an `undefined`-able value. -/
def optStr : Option String → String
  | some s => s
  | none => "undefined"

/-- Function `createCodeGenerationTask`; `k` is the index of its `Date.now()` call. -/
def createCodeGenerationTask (pp : ProcessedPrompt) (c : Clock) (k : Nat) : Task :=
  { id := "code_gen_" ++ toString (c k)
    type := .code_generation
    description := "Generate " ++ optStr pp.context.language ++
      " code based on the prompt: " ++ pp.originalPrompt
    dependencies := []
    estimatedComplexity := pp.complexity
    context := [("language", .str pp.context.language),
                ("framework", .str pp.context.framework),
                ("dependencies", .strs pp.context.dependencies)] }

/-- Function `createDocumentationTask`; consumes clock ticks `k`, `k+1`. -/
def createDocumentationTask (pp : ProcessedPrompt) (c : Clock) (k : Nat) : Task :=
  { id := "docs_" ++ toString (c k)
    type := .documentation
    description := "Generate documentation for the generated code"
    dependencies := ["code_gen_" ++ toString (c (k + 1))]
    estimatedComplexity := max (pp.complexity - 2) 1
    context := [("language", .str pp.context.language),
                ("framework", .str pp.context.framework)] }

/-- Function `createTestingTask`; consumes clock ticks `k`, `k+1`. -/
def createTestingTask (pp : ProcessedPrompt) (c : Clock) (k : Nat) : Task :=
  { id := "test_" ++ toString (c k)
    type := .testing
    description := "Generate tests for the generated code"
    dependencies := ["code_gen_" ++ toString (c (k + 1))]
    estimatedComplexity := pp.complexity
    context := [("language", .str pp.context.language),
                ("framework", .str pp.context.framework)] }

/-- Function `createOptimizationTask`; consumes clock ticks `k`..`k+2`. -/
def createOptimizationTask (pp : ProcessedPrompt) (c : Clock) (k : Nat) : Task :=
  { id := "opt_" ++ toString (c k)
    type := .optimization
    description := "Optimize the generated code for performance"
    dependencies := ["code_gen_" ++ toString (c (k + 1)),
                     "test_" ++ toString (c (k + 2))]
    estimatedComplexity := pp.complexity + 1
    context := [("language", .str pp.context.language),
                ("framework", .str pp.context.framework)] }

/-- Function `createSecurityTask`; consumes clock ticks `k`..`k+2`. -/
def createSecurityTask (pp : ProcessedPrompt) (c : Clock) (k : Nat) : Task :=
  { id := "security_" ++ toString (c k)
    type := .security
    description := "Implement security measures and validate the generated code"
    dependencies := ["code_gen_" ++ toString (c (k + 1)),
                     "opt_" ++ toString (c (k + 2))]
    estimatedComplexity := pp.complexity + 2
    context := [("language", .str pp.context.language),
                ("framework", .str pp.context.framework),
                ("securityChecks", .strs
                  ["input_validation", "authentication", "authorization",
                   "data_sanitization", "encryption"])] }

/-- Function `createDeploymentTask`; consumes clock ticks `k`..`k+3`. -/
def createDeploymentTask (pp : ProcessedPrompt) (c : Clock) (k : Nat) : Task :=
  { id := "deploy_" ++ toString (c k)
    type := .deployment
    description := "Prepare deployment configuration and scripts"
    dependencies := ["code_gen_" ++ toString (c (k + 1)),
                     "test_" ++ toString (c (k + 2)),
                     "security_" ++ toString (c (k + 3))]
    estimatedComplexity := max (pp.complexity - 1) 1
    context := [("platform", .str pp.context.platform),
                ("framework", .str pp.context.framework)] }

/-! ### Trigger predicates -/

def docKeywords : List String :=
  ["document", "documentation", "docs", "comment", "api"]

def testKeywords : List String :=
  ["test", "testing", "unit test", "integration test", "e2e"]

def optKeywords : List String :=
  ["optimize", "performance", "efficient", "fast", "scale"]

def securityKeywords : List String :=
  ["secure", "security", "authentication", "authorization", "encrypt"]

def deployKeywords : List String :=
  ["deploy", "deployment", "ci/cd", "pipeline", "release"]

def sensitiveKeywords : List String :=
  ["user", "password", "auth", "token", "credential",
   "payment", "credit", "personal", "private", "sensitive"]

/-- Function `containsKeywords`: a keyword matches as a whole lower-cased token or
as a substring of the space-joined lower-cased token text. -/
def containsKeywords (tp : TokenizedPrompt) (keywords : List String) : Bool :=
  let tokens := tp.tokens.map lowerStr
  keywords.any (fun keyword =>
    tokens.contains (lowerStr keyword) ||
    strContains (joinSp tokens) (lowerStr keyword))

def complexityIndicators : List String :=
  ["class", "interface", "function", "method",
   "api", "endpoint", "database", "async"]

/-- Function `isComplexEnough`: at least two complexity-indicator tokens. -/
def isComplexEnough (tp : TokenizedPrompt) : Bool :=
  2 ≤ (tp.tokens.filter
    (fun token => complexityIndicators.contains (lowerStr token))).length

def requiresDocumentation (tp : TokenizedPrompt) : Bool :=
  containsKeywords tp docKeywords || isComplexEnough tp

def requiresTesting (tp : TokenizedPrompt) : Bool :=
  containsKeywords tp testKeywords || isComplexEnough tp

def requiresOptimization (tp : TokenizedPrompt) : Bool :=
  containsKeywords tp optKeywords

def containsSensitiveOperations (tp : TokenizedPrompt) : Bool :=
  containsKeywords tp sensitiveKeywords

def requiresSecurity (tp : TokenizedPrompt) : Bool :=
  containsKeywords tp securityKeywords || containsSensitiveOperations tp

def requiresDeployment (tp : TokenizedPrompt) : Bool :=
  containsKeywords tp deployKeywords

/-! ### Dependency wiring -/

/-- Function `addDependencyIfExists`: look up the first task of the given type and
append its id to the task's dependency list unless already present. -/
def addDependencyIfExists (task : Task) (allTasks : List Task)
    (dependencyType : TaskType) : Task :=
  match allTasks.find? (fun t => decide (t.type = dependencyType)) with
  | some dependency =>
    if dependency.id ∈ task.dependencies then task
    else { task with dependencies := task.dependencies ++ [dependency.id] }
  | none => task

/-- The `switch` body of `establishTaskDependencies` for one task. -/
def establishOne (task : Task) (allTasks : List Task) : Task :=
  match task.type with
  | .documentation => addDependencyIfExists task allTasks .code_generation
  | .testing => addDependencyIfExists task allTasks .code_generation
  | .optimization =>
    addDependencyIfExists
      (addDependencyIfExists task allTasks .code_generation) allTasks .testing
  | .security =>
    addDependencyIfExists
      (addDependencyIfExists task allTasks .code_generation) allTasks .optimization
  | .deployment =>
    addDependencyIfExists
      (addDependencyIfExists
        (addDependencyIfExists task allTasks .code_generation) allTasks .testing)
      allTasks .security
  | .code_generation => task

/-- Function `establishTaskDependencies`: the in-place `forEach` pass.  The lookups
read only `type` and `id`, which the pass never changes, so mapping with
the original list as the lookup table is equivalent to the mutation. -/
def establishTaskDependencies (tasks : List Task) : List Task :=
  tasks.map (fun t => establishOne t tasks)

/-- The task list built by the conditional `tasks.push(...)` sequence of
`extractTasks`, before the dependency pass; the `Date.now()` call counter
follows JavaScript evaluation order (object fields in source order). -/
def baseTasks (pp : ProcessedPrompt) (c : Clock) : List Task :=
  let tz := pp.tokenized
  let kDoc := 1
  let kTest := kDoc + (if requiresDocumentation tz then 2 else 0)
  let kOpt := kTest + (if requiresTesting tz then 2 else 0)
  let kSec := kOpt + (if requiresOptimization tz then 3 else 0)
  let kDep := kSec + (if requiresSecurity tz then 3 else 0)
  [createCodeGenerationTask pp c 0]
    ++ (if requiresDocumentation tz then [createDocumentationTask pp c kDoc] else [])
    ++ (if requiresTesting tz then [createTestingTask pp c kTest] else [])
    ++ (if requiresOptimization tz then [createOptimizationTask pp c kOpt] else [])
    ++ (if requiresSecurity tz then [createSecurityTask pp c kSec] else [])
    ++ (if requiresDeployment tz then [createDeploymentTask pp c kDep] else [])

/-- Function `extractTasks`: build the conditional task list, then run the
dependency pass over it. -/
def extractTasks (pp : ProcessedPrompt) (c : Clock) : List Task :=
  establishTaskDependencies (baseTasks pp c)

/-! ## Derived notions used by the statements -/

/-- The id prefix each task kind uses in its template-literal id. -/
def typePre : TaskType → String
  | .code_generation => "code_gen_"
  | .documentation => "docs_"
  | .testing => "test_"
  | .optimization => "opt_"
  | .security => "security_"
  | .deployment => "deploy_"

/-- The kind-level dependency table realised by both the pre-filled
dependency ids of the `create*Task` functions and the `switch` of
`establishTaskDependencies`. -/
def depTable : TaskType → TaskType → Bool
  | .documentation, .code_generation => true
  | .testing, .code_generation => true
  | .optimization, .code_generation => true
  | .optimization, .testing => true
  | .security, .code_generation => true
  | .security, .optimization => true
  | .deployment, .code_generation => true
  | .deployment, .testing => true
  | .deployment, .security => true
  | _, _ => false

/-- The ordered `addDependencyIfExists` targets of each `switch` case. -/
def targetsOf : TaskType → List TaskType
  | .code_generation => []
  | .documentation => [.code_generation]
  | .testing => [.code_generation]
  | .optimization => [.code_generation, .testing]
  | .security => [.code_generation, .optimization]
  | .deployment => [.code_generation, .testing, .security]

/-- A topological rank: every dependency edge strictly decreases it. -/
def rank : TaskType → Nat
  | .code_generation => 0
  | .documentation => 1
  | .testing => 1
  | .optimization => 2
  | .security => 3
  | .deployment => 4

/-- Sequential composition of `addDependencyIfExists` calls. -/
def wireChain (task : Task) (allTasks : List Task) : List TaskType → Task
  | [] => task
  | k :: ks => wireChain (addDependencyIfExists task allTasks k) allTasks ks

/-- The task kinds a prompt triggers, in emission order (clock-free). -/
def kindsOf (tz : TokenizedPrompt) : List TaskType :=
  [.code_generation]
    ++ (if requiresDocumentation tz then [.documentation] else [])
    ++ (if requiresTesting tz then [.testing] else [])
    ++ (if requiresOptimization tz then [.optimization] else [])
    ++ (if requiresSecurity tz then [.security] else [])
    ++ (if requiresDeployment tz then [.deployment] else [])

/-- Task `a` depends on task `b` inside the collection `tasks`. -/
def TaskDep (tasks : List Task) (a b : Task) : Prop :=
  a ∈ tasks ∧ b ∈ tasks ∧ b.id ∈ a.dependencies

/-- A kind-level dependency edge is realised in the collection. -/
def KindEdge (tasks : List Task) (k₁ k₂ : TaskType) : Prop :=
  ∃ a ∈ tasks, ∃ b ∈ tasks, a.type = k₁ ∧ b.type = k₂ ∧ b.id ∈ a.dependencies

/-- String `sub` occurs contiguously inside `s`. -/
def SubstrOf (sub s : String) : Prop :=
  ∃ l₁ l₂, s.data = l₁ ++ sub.data ++ l₂

/-- The task's id is its kind's prefix followed by a rendered number. -/
def IdShaped (t : Task) : Prop :=
  ∃ n : Nat, t.id = typePre t.type ++ toString n

/-- Every stored dependency id is a table-allowed prefix plus a number. -/
def DepsShaped (t : Task) : Prop :=
  ∀ d ∈ t.dependencies,
    ∃ k, ∃ n : Nat, depTable t.type k = true ∧ d = typePre k ++ toString n

/-! ## Concrete inputs used by counterexamples and witnesses -/

/-- The identity clock, a convenient concrete `Date.now()` model. -/
def cId : Clock := fun k => k

/-- A lexical result for a prompt with a security keyword and no
performance keyword: tokens of "make it secure". -/
def tpSec : TokenizedPrompt :=
  { tokens := ["make", "it", "secure"], tags := [],
    entities := { technologies := [], actions := [], nouns := [], numbers := [] } }

def ppSec : ProcessedPrompt := processPrompt "make it secure" tpSec

/-- A lexical result whose technology entities name two known languages,
`python` before `javascript` in entity order. -/
def tpLang : TokenizedPrompt :=
  { tokens := [], tags := [],
    entities := { technologies := ["python", "javascript"], actions := [],
                  nouns := [], numbers := [] } }

/-- Modelled from the spec: "take the *first* match in entity order" — the
first technology entity (after lower-casing) that the language lookup list
recognises.  This is the spec's description, to be compared with the
lookup-list-ordered `find?` the code performs. -/
def specEntityLanguage (tp : TokenizedPrompt) : Option String :=
  (tp.entities.technologies.map lowerStr).find?
    (fun tech => languages.any (fun lang =>
      tech == lang || tech == lang ++ "programming"))

/-- A lexical result with three entities and no complexity keyword:
its complexity score is 1.5. -/
def tpHalf : TokenizedPrompt :=
  { tokens := [], tags := [],
    entities := { technologies := ["a", "b", "c"], actions := [],
                  nouns := [], numbers := [] } }

/-- Tokens for the constraint-extraction witness. -/
def tpMust : TokenizedPrompt :=
  { tokens := ["it", "must", "be", "fast", "."], tags := [],
    entities := { technologies := [], actions := [], nouns := [], numbers := [] } }

/-- Tokens containing `latest`, whose substring `test` triggers testing. -/
def tpLatest : TokenizedPrompt :=
  { tokens := ["ship", "latest"], tags := [],
    entities := { technologies := [], actions := [], nouns := [], numbers := [] } }

/-- Tokens containing `urgent` and the words of `nice to have` split into
separate tokens. -/
def tpUrgent : TokenizedPrompt :=
  { tokens := ["urgent", "nice", "to", "have"], tags := [],
    entities := { technologies := [], actions := [], nouns := [], numbers := [] } }

/-- A prompt longer than the 1000-character warning threshold. -/
def longPrompt : String := String.mk (List.replicate 1001 'a')

/-- A placeholder task used to instantiate universally quantified task
variables in witnesses. -/
def dummyTask : Task :=
  { id := "", type := .code_generation, description := "",
    dependencies := [], estimatedComplexity := 0, context := [] }

/-! # Theorems -/

/-! ## Characterisation of the `indexOf` model -/

theorem searchFrom_eq_some {s pat : List Char} :
    ∀ {f i r : Nat}, searchFrom s pat i f = some r ↔
      i ≤ r ∧ r < i + f ∧ OccursAt s pat r ∧
        ∀ j, i ≤ j → j < r → ¬ OccursAt s pat j := by
  intro f
  induction f with
  | zero =>
    intro i r
    simp only [searchFrom]
    constructor
    · intro h; cases h
    · rintro ⟨h₁, h₂, -⟩; omega
  | succ f ih =>
    intro i r
    rw [searchFrom]
    split
    · rename_i hocc
      constructor
      · intro h
        cases h
        exact ⟨le_refl _, by omega, hocc, fun j h₁ h₂ => by omega⟩
      · rintro ⟨h₁, -, -, h₄⟩
        by_cases hir : i = r
        · rw [hir]
        · exact absurd hocc (h₄ i (le_refl _) (by omega))
    · rename_i hocc
      rw [ih]
      constructor
      · rintro ⟨h₁, h₂, h₃, h₄⟩
        refine ⟨by omega, by omega, h₃, fun j hj₁ hj₂ => ?_⟩
        by_cases hji : j = i
        · rw [hji]; exact hocc
        · exact h₄ j (by omega) hj₂
      · rintro ⟨h₁, h₂, h₃, h₄⟩
        have hir : i ≠ r := by rintro rfl; exact hocc h₃
        exact ⟨by omega, by omega, h₃, fun j hj₁ hj₂ => h₄ j (by omega) hj₂⟩

theorem searchFrom_eq_none {s pat : List Char} :
    ∀ {f i : Nat}, searchFrom s pat i f = none ↔
      ∀ j, i ≤ j → j < i + f → ¬ OccursAt s pat j := by
  intro f
  induction f with
  | zero =>
    intro i
    simp only [searchFrom]
    constructor
    · intro _ j hj₁ hj₂; omega
    · intro _; trivial
  | succ f ih =>
    intro i
    rw [searchFrom]
    split
    · rename_i hocc
      constructor
      · intro h; cases h
      · intro h; exact absurd hocc (h i (le_refl _) (by omega))
    · rename_i hocc
      rw [ih]
      constructor
      · intro h j hj₁ hj₂
        by_cases hji : j = i
        · rw [hji]; exact hocc
        · exact h j (by omega) (by omega)
      · intro h j hj₁ hj₂
        exact h j (by omega) (by omega)

/-- An occurrence fits inside the text: the pattern length is bounded by
what remains after the offset. -/
theorem OccursAt.length_le {s pat : List Char} {i : Nat}
    (h : OccursAt s pat i) : pat.length ≤ s.length - i := by
  have hl := congrArg List.length h
  simp only [List.length_take, List.length_drop] at hl
  omega

theorem jsIndexOf_eq_some {s pat : List Char} {start r : Nat}
    (hp : pat ≠ []) :
    jsIndexOf s pat start = some r ↔
      start ≤ r ∧ OccursAt s pat r ∧
        ∀ j, start ≤ j → j < r → ¬ OccursAt s pat j := by
  unfold jsIndexOf
  rw [searchFrom_eq_some]
  constructor
  · rintro ⟨h₁, -, h₃, h₄⟩; exact ⟨h₁, h₃, h₄⟩
  · rintro ⟨h₁, h₂, h₃⟩
    have hlen := h₂.length_le
    have hpl : 0 < pat.length := List.length_pos.mpr hp
    exact ⟨h₁, by omega, h₂, h₃⟩

theorem jsIndexOf_eq_none {s pat : List Char} {start : Nat}
    (hp : pat ≠ []) :
    jsIndexOf s pat start = none ↔
      ∀ j, start ≤ j → ¬ OccursAt s pat j := by
  unfold jsIndexOf
  rw [searchFrom_eq_none]
  constructor
  · intro h j hj hocc
    have hlen := hocc.length_le
    have hpl : 0 < pat.length := List.length_pos.mpr hp
    exact h j hj (by omega) hocc
  · intro h j hj _
    exact h j hj

/-! ## Substring occurrence -/

theorem substrOf_iff_occursAt {sub s : String} :
    SubstrOf sub s ↔ ∃ i, OccursAt s.data sub.data i := by
  constructor
  · rintro ⟨l₁, l₂, h⟩
    refine ⟨l₁.length, ?_⟩
    unfold OccursAt
    rw [h, List.append_assoc, List.drop_left, List.take_left]
  · rintro ⟨i, h⟩
    refine ⟨s.data.take i, s.data.drop (i + sub.data.length), ?_⟩
    conv_lhs => rw [← List.take_append_drop i s.data]
    rw [← List.take_append_drop sub.data.length (s.data.drop i), ← h,
      List.drop_drop, List.append_assoc]

theorem strContains_iff {s sub : String} :
    strContains s sub = true ↔ SubstrOf sub s := by
  rw [substrOf_iff_occursAt]
  unfold strContains jsIndexOf
  rw [Option.isSome_iff_exists]
  constructor
  · rintro ⟨r, hr⟩
    exact ⟨r, (searchFrom_eq_some.mp hr).2.2.1⟩
  · rintro ⟨i, hi⟩
    have hex : ∃ j, j ≤ s.data.length ∧ OccursAt s.data sub.data j := by
      rcases eq_or_ne sub.data [] with hnil | hnil
      · exact ⟨0, Nat.zero_le _, by simp [OccursAt, hnil]⟩
      · have h₁ := hi.length_le
        have h₂ : 0 < sub.data.length := List.length_pos.mpr hnil
        exact ⟨i, by omega, hi⟩
    obtain ⟨j, hj, hocc⟩ := hex
    cases h : searchFrom s.data sub.data 0 (s.data.length + 1 - 0) with
    | none =>
      rw [searchFrom_eq_none] at h
      exact absurd hocc (h j (Nat.zero_le _) (by omega))
    | some r => exact ⟨r, rfl⟩

theorem SubstrOf.trans {a b c : String} (h₁ : SubstrOf a b)
    (h₂ : SubstrOf b c) : SubstrOf a c := by
  obtain ⟨l₁, l₂, hb⟩ := h₁
  obtain ⟨m₁, m₂, hc⟩ := h₂
  exact ⟨m₁ ++ l₁, l₂ ++ m₂, by rw [hc, hb]; simp⟩

/-- Every list member is a substring of the space-joined list. -/
theorem substrOf_joinSp {t : String} : ∀ {l : List String}, t ∈ l →
    SubstrOf t (joinSp l) := by
  intro l
  induction l with
  | nil => intro h; cases h
  | cons s rest ih =>
    intro h
    rcases List.mem_cons.mp h with rfl | hmem
    · cases rest with
      | nil => exact ⟨[], [], by simp [joinSp]⟩
      | cons b bs =>
        refine ⟨[], " ".data ++ (joinSp (b :: bs)).data, ?_⟩
        show ((t ++ " ") ++ joinSp (b :: bs)).data =
          [] ++ t.data ++ (" ".data ++ (joinSp (b :: bs)).data)
        rw [String.data_append, String.data_append]
        simp
    · cases rest with
      | nil => cases hmem
      | cons b bs =>
        obtain ⟨l₁, l₂, hj⟩ := ih hmem
        refine ⟨s.data ++ " ".data ++ l₁, l₂, ?_⟩
        show ((s ++ " ") ++ joinSp (b :: bs)).data =
          s.data ++ " ".data ++ l₁ ++ t.data ++ l₂
        rw [String.data_append, String.data_append, hj]
        simp

/-! ## ASCII lower-casing preserves spacelessness -/

theorem charOfNat_shift_ne_space (m : ℕ) (h1 : 65 ≤ m) (h2 : m ≤ 90) :
    (Char.ofNat (m + 32)).toNat ≠ 32 := by
  interval_cases m <;> decide

theorem lowerChar_eq_space {c : Char} (h : lowerChar c = ' ') : c = ' ' := by
  unfold lowerChar at h
  split at h
  · rename_i hc
    exact absurd (congrArg Char.toNat h)
      (charOfNat_shift_ne_space c.toNat hc.1 hc.2)
  · exact h

/-- A token without a space cannot lower-case to the multi-word keyword
`nice to have`. -/
theorem lowerStr_ne_multiword {t : String} (h : ' ' ∉ t.data) :
    lowerStr t ≠ "nice to have" := by
  intro he
  have hm : ' ' ∈ (lowerStr t).data := by rw [he]; decide
  have hd : (lowerStr t).data = t.data.map lowerChar := rfl
  rw [hd] at hm
  obtain ⟨c, hc, hlc⟩ := List.mem_map.mp hm
  exact h (lowerChar_eq_space hlc ▸ hc)

/-! ## Id prefixes -/

/-- Appending cannot confuse strings whose first characters differ. -/
theorem append_ne_of_head_ne {p q : String} (s t : String) {a b : Char}
    {l₁ l₂ : List Char} (hp : p.data = a :: l₁) (hq : q.data = b :: l₂)
    (hab : a ≠ b) : p ++ s ≠ q ++ t := by
  intro he
  have hd := congrArg String.data he
  rw [String.data_append, String.data_append, hp, hq] at hd
  exact hab (List.head_eq_of_cons_eq hd)

/-- Dependency ids only carry prefixes of the four dependency-target
kinds, and those four prefixes all start with distinct characters, so a
prefixed id can only equal the id of a task of the same kind. -/
theorem typePre_append_inj {k₁ k₂ : TaskType} {s t : String}
    (h₁ : k₁ = TaskType.code_generation ∨ k₁ = TaskType.testing ∨
      k₁ = TaskType.optimization ∨ k₁ = TaskType.security)
    (heq : typePre k₁ ++ s = typePre k₂ ++ t) : k₁ = k₂ := by
  cases k₁ <;> cases k₂ <;>
    first
      | rfl
      | (exact absurd heq (append_ne_of_head_ne s t rfl rfl (by decide)))
      | (rcases h₁ with h | h | h | h <;> cases h)

/-! ## The dependency table -/

theorem depTable_rank {k₁ k₂ : TaskType} (h : depTable k₁ k₂ = true) :
    rank k₂ < rank k₁ := by
  cases k₁ <;> cases k₂ <;> first | decide | (exact absurd h (by decide))

theorem depTable_target {k₁ k₂ : TaskType} (h : depTable k₁ k₂ = true) :
    k₂ = TaskType.code_generation ∨ k₂ = TaskType.testing ∨
      k₂ = TaskType.optimization ∨ k₂ = TaskType.security := by
  cases k₁ <;> cases k₂ <;> first | decide | (exact absurd h (by decide))

theorem mem_targetsOf_iff {k₁ k₂ : TaskType} :
    k₂ ∈ targetsOf k₁ ↔ depTable k₁ k₂ = true := by
  cases k₁ <;> cases k₂ <;> decide

theorem depTable_root {k : TaskType} (h : k ≠ TaskType.code_generation) :
    depTable k TaskType.code_generation = true := by
  cases k <;> first | (exact absurd rfl h) | rfl

/-! ## `addDependencyIfExists` and `wireChain` -/

theorem addDep_id (t : Task) (all : List Task) (k : TaskType) :
    (addDependencyIfExists t all k).id = t.id := by
  unfold addDependencyIfExists
  cases all.find? (fun x => decide (x.type = k)) with
  | none => rfl
  | some dep => by_cases h : dep.id ∈ t.dependencies <;> simp [h]

theorem addDep_type (t : Task) (all : List Task) (k : TaskType) :
    (addDependencyIfExists t all k).type = t.type := by
  unfold addDependencyIfExists
  cases all.find? (fun x => decide (x.type = k)) with
  | none => rfl
  | some dep => by_cases h : dep.id ∈ t.dependencies <;> simp [h]

theorem addDep_ec (t : Task) (all : List Task) (k : TaskType) :
    (addDependencyIfExists t all k).estimatedComplexity =
      t.estimatedComplexity := by
  unfold addDependencyIfExists
  cases all.find? (fun x => decide (x.type = k)) with
  | none => rfl
  | some dep => by_cases h : dep.id ∈ t.dependencies <;> simp [h]

theorem addDep_deps (t : Task) (all : List Task) (k : TaskType) :
    ∃ extra, (addDependencyIfExists t all k).dependencies =
      t.dependencies ++ extra ∧
      ∀ d ∈ extra, ∃ b ∈ all, b.type = k ∧ d = b.id := by
  unfold addDependencyIfExists
  cases hf : all.find? (fun x => decide (x.type = k)) with
  | none => exact ⟨[], by simp⟩
  | some dep =>
    have hmem := List.mem_of_find?_eq_some hf
    have htype : dep.type = k := by simpa using List.find?_some hf
    by_cases h : dep.id ∈ t.dependencies
    · exact ⟨[], by simp [h]⟩
    · refine ⟨[dep.id], by simp [h], ?_⟩
      intro d hd
      rw [List.mem_singleton] at hd
      exact ⟨dep, hmem, htype, hd⟩

theorem addDep_mono (t : Task) (all : List Task) (k : TaskType) {d : String}
    (h : d ∈ t.dependencies) :
    d ∈ (addDependencyIfExists t all k).dependencies := by
  obtain ⟨extra, he, -⟩ := addDep_deps t all k
  rw [he]
  exact List.mem_append_left _ h

theorem addDep_hit (t : Task) (all : List Task) (k : TaskType)
    (h : ∃ b ∈ all, b.type = k) :
    ∃ b ∈ all, b.type = k ∧
      b.id ∈ (addDependencyIfExists t all k).dependencies := by
  obtain ⟨b, hb, hbt⟩ := h
  have hs : (all.find? (fun x => decide (x.type = k))).isSome :=
    List.find?_isSome.mpr ⟨b, hb, by simp [hbt]⟩
  obtain ⟨dep, hdep⟩ := Option.isSome_iff_exists.mp hs
  refine ⟨dep, List.mem_of_find?_eq_some hdep,
    by simpa using List.find?_some hdep, ?_⟩
  unfold addDependencyIfExists
  rw [hdep]
  by_cases h : dep.id ∈ t.dependencies <;> simp [h]

theorem wireChain_id (t : Task) (all : List Task) :
    ∀ ks, (wireChain t all ks).id = t.id := by
  intro ks
  induction ks generalizing t with
  | nil => rfl
  | cons k ks ih => rw [wireChain, ih, addDep_id]

theorem wireChain_type (t : Task) (all : List Task) :
    ∀ ks, (wireChain t all ks).type = t.type := by
  intro ks
  induction ks generalizing t with
  | nil => rfl
  | cons k ks ih => rw [wireChain, ih, addDep_type]

theorem wireChain_ec (t : Task) (all : List Task) :
    ∀ ks, (wireChain t all ks).estimatedComplexity = t.estimatedComplexity := by
  intro ks
  induction ks generalizing t with
  | nil => rfl
  | cons k ks ih => rw [wireChain, ih, addDep_ec]

theorem wireChain_deps (t : Task) (all : List Task) :
    ∀ ks, ∃ extra, (wireChain t all ks).dependencies =
      t.dependencies ++ extra ∧
      ∀ d ∈ extra, ∃ b ∈ all, b.type ∈ ks ∧ d = b.id := by
  intro ks
  induction ks generalizing t with
  | nil => exact ⟨[], by simp [wireChain]⟩
  | cons k ks ih =>
    obtain ⟨e₁, he₁, hp₁⟩ := addDep_deps t all k
    obtain ⟨e₂, he₂, hp₂⟩ := ih (addDependencyIfExists t all k)
    refine ⟨e₁ ++ e₂, ?_, ?_⟩
    · rw [wireChain, he₂, he₁, List.append_assoc]
    · intro d hd
      rcases List.mem_append.mp hd with hd | hd
      · obtain ⟨b, hb, hbt, hbd⟩ := hp₁ d hd
        exact ⟨b, hb, by rw [hbt]; exact List.mem_cons_self _ _, hbd⟩
      · obtain ⟨b, hb, hbt, hbd⟩ := hp₂ d hd
        exact ⟨b, hb, List.mem_cons_of_mem _ hbt, hbd⟩

theorem wireChain_mono (t : Task) (all : List Task) {d : String}
    (h : d ∈ t.dependencies) :
    ∀ ks, d ∈ (wireChain t all ks).dependencies := by
  intro ks
  induction ks generalizing t with
  | nil => exact h
  | cons k ks ih => exact ih _ (addDep_mono t all k h)

theorem wireChain_hit (t : Task) (all : List Task) {k : TaskType}
    (hex : ∃ b ∈ all, b.type = k) :
    ∀ ks, k ∈ ks →
      ∃ b ∈ all, b.type = k ∧ b.id ∈ (wireChain t all ks).dependencies := by
  intro ks
  induction ks generalizing t with
  | nil => intro h; cases h
  | cons k' ks ih =>
    intro hmem
    rcases List.mem_cons.mp hmem with rfl | hmem
    · obtain ⟨b, hb, hbt, hbd⟩ := addDep_hit t all k hex
      exact ⟨b, hb, hbt, wireChain_mono _ all hbd ks⟩
    · exact ih _ hmem

/-! ## `establishOne` -/

theorem establishOne_eq_wireChain (t : Task) (all : List Task) :
    establishOne t all = wireChain t all (targetsOf t.type) := by
  unfold establishOne
  cases t.type <;> rfl

theorem establishOne_id (t : Task) (all : List Task) :
    (establishOne t all).id = t.id := by
  rw [establishOne_eq_wireChain, wireChain_id]

theorem establishOne_type (t : Task) (all : List Task) :
    (establishOne t all).type = t.type := by
  rw [establishOne_eq_wireChain, wireChain_type]

theorem establishOne_ec (t : Task) (all : List Task) :
    (establishOne t all).estimatedComplexity = t.estimatedComplexity := by
  rw [establishOne_eq_wireChain, wireChain_ec]

theorem establishOne_deps (t : Task) (all : List Task) :
    ∃ extra, (establishOne t all).dependencies = t.dependencies ++ extra ∧
      ∀ d ∈ extra, ∃ b ∈ all, depTable t.type b.type = true ∧ d = b.id := by
  rw [establishOne_eq_wireChain]
  obtain ⟨extra, he, hp⟩ := wireChain_deps t all (targetsOf t.type)
  refine ⟨extra, he, fun d hd => ?_⟩
  obtain ⟨b, hb, hbt, hbd⟩ := hp d hd
  exact ⟨b, hb, by rw [← mem_targetsOf_iff]; exact hbt, hbd⟩

theorem establishOne_hit (t : Task) (all : List Task) {k : TaskType}
    (htab : depTable t.type k = true) (hex : ∃ b ∈ all, b.type = k) :
    ∃ b ∈ all, b.type = k ∧ b.id ∈ (establishOne t all).dependencies := by
  rw [establishOne_eq_wireChain]
  exact wireChain_hit t all hex _ (mem_targetsOf_iff.mpr htab)

/-! ## Shape of the freshly created tasks -/

theorem mem_opt_list {b : Bool} {x t : Task}
    (h : t ∈ (if b then [x] else [])) : t = x ∧ b = true := by
  split at h
  · exact ⟨List.mem_singleton.mp h, by assumption⟩
  · cases h

theorem createCodeGenerationTask_shape (pp : ProcessedPrompt) (c : Clock)
    (k : Nat) : IdShaped (createCodeGenerationTask pp c k) ∧
      DepsShaped (createCodeGenerationTask pp c k) := by
  constructor
  · exact ⟨c k, rfl⟩
  · intro d hd; cases hd

theorem createDocumentationTask_shape (pp : ProcessedPrompt) (c : Clock)
    (k : Nat) : IdShaped (createDocumentationTask pp c k) ∧
      DepsShaped (createDocumentationTask pp c k) := by
  refine ⟨⟨c k, rfl⟩, fun d hd => ?_⟩
  rcases List.mem_singleton.mp hd with rfl
  exact ⟨.code_generation, c (k + 1), rfl, rfl⟩

theorem createTestingTask_shape (pp : ProcessedPrompt) (c : Clock)
    (k : Nat) : IdShaped (createTestingTask pp c k) ∧
      DepsShaped (createTestingTask pp c k) := by
  refine ⟨⟨c k, rfl⟩, fun d hd => ?_⟩
  rcases List.mem_singleton.mp hd with rfl
  exact ⟨.code_generation, c (k + 1), rfl, rfl⟩

theorem createOptimizationTask_shape (pp : ProcessedPrompt) (c : Clock)
    (k : Nat) : IdShaped (createOptimizationTask pp c k) ∧
      DepsShaped (createOptimizationTask pp c k) := by
  refine ⟨⟨c k, rfl⟩, fun d hd => ?_⟩
  rcases List.mem_cons.mp hd with rfl | hd
  · exact ⟨.code_generation, c (k + 1), rfl, rfl⟩
  rcases List.mem_singleton.mp hd with rfl
  exact ⟨.testing, c (k + 2), rfl, rfl⟩

theorem createSecurityTask_shape (pp : ProcessedPrompt) (c : Clock)
    (k : Nat) : IdShaped (createSecurityTask pp c k) ∧
      DepsShaped (createSecurityTask pp c k) := by
  refine ⟨⟨c k, rfl⟩, fun d hd => ?_⟩
  rcases List.mem_cons.mp hd with rfl | hd
  · exact ⟨.code_generation, c (k + 1), rfl, rfl⟩
  rcases List.mem_singleton.mp hd with rfl
  exact ⟨.optimization, c (k + 2), rfl, rfl⟩

theorem createDeploymentTask_shape (pp : ProcessedPrompt) (c : Clock)
    (k : Nat) : IdShaped (createDeploymentTask pp c k) ∧
      DepsShaped (createDeploymentTask pp c k) := by
  refine ⟨⟨c k, rfl⟩, fun d hd => ?_⟩
  rcases List.mem_cons.mp hd with rfl | hd
  · exact ⟨.code_generation, c (k + 1), rfl, rfl⟩
  rcases List.mem_cons.mp hd with rfl | hd
  · exact ⟨.testing, c (k + 2), rfl, rfl⟩
  rcases List.mem_singleton.mp hd with rfl
  exact ⟨.security, c (k + 3), rfl, rfl⟩

/-- Decompose membership in the pre-wiring task list into its six
possible origins. -/
theorem base_mem_cases {pp : ProcessedPrompt} {c : Clock} {t : Task}
    (h : t ∈ baseTasks pp c) :
    t = createCodeGenerationTask pp c 0 ∨
    (∃ k, t = createDocumentationTask pp c k) ∨
    (∃ k, t = createTestingTask pp c k) ∨
    (∃ k, t = createOptimizationTask pp c k) ∨
    (∃ k, t = createSecurityTask pp c k) ∨
    (∃ k, t = createDeploymentTask pp c k) := by
  unfold baseTasks at h
  rcases List.mem_append.mp h with h | h
  rotate_left
  · exact .inr (.inr (.inr (.inr (.inr ⟨_, (mem_opt_list h).1⟩))))
  rcases List.mem_append.mp h with h | h
  rotate_left
  · exact .inr (.inr (.inr (.inr (.inl ⟨_, (mem_opt_list h).1⟩))))
  rcases List.mem_append.mp h with h | h
  rotate_left
  · exact .inr (.inr (.inr (.inl ⟨_, (mem_opt_list h).1⟩)))
  rcases List.mem_append.mp h with h | h
  rotate_left
  · exact .inr (.inr (.inl ⟨_, (mem_opt_list h).1⟩))
  rcases List.mem_append.mp h with h | h
  rotate_left
  · exact .inr (.inl ⟨_, (mem_opt_list h).1⟩)
  · exact .inl (List.mem_singleton.mp h)

theorem base_shaped {pp : ProcessedPrompt} {c : Clock} {t : Task}
    (h : t ∈ baseTasks pp c) : IdShaped t ∧ DepsShaped t := by
  rcases base_mem_cases h with rfl | ⟨k, rfl⟩ | ⟨k, rfl⟩ | ⟨k, rfl⟩ | ⟨k, rfl⟩ | ⟨k, rfl⟩
  · exact createCodeGenerationTask_shape pp c 0
  · exact createDocumentationTask_shape pp c k
  · exact createTestingTask_shape pp c k
  · exact createOptimizationTask_shape pp c k
  · exact createSecurityTask_shape pp c k
  · exact createDeploymentTask_shape pp c k

/-- The only task of kind `code_generation` in the pre-wiring list is the
one `createCodeGenerationTask` built, and its dependency list is empty. -/
theorem base_cg_deps {pp : ProcessedPrompt} {c : Clock} {t : Task}
    (h : t ∈ baseTasks pp c) (ht : t.type = .code_generation) :
    t.dependencies = [] := by
  rcases base_mem_cases h with rfl | ⟨k, rfl⟩ | ⟨k, rfl⟩ | ⟨k, rfl⟩ | ⟨k, rfl⟩ | ⟨k, rfl⟩
  · rfl
  all_goals cases ht

/-! ## The wired task collection -/

theorem extract_mem {pp : ProcessedPrompt} {c : Clock} {t : Task} :
    t ∈ extractTasks pp c ↔
      ∃ t₀ ∈ baseTasks pp c, t = establishOne t₀ (baseTasks pp c) := by
  unfold extractTasks establishTaskDependencies
  rw [List.mem_map]
  constructor
  · rintro ⟨t₀, h, rfl⟩; exact ⟨t₀, h, rfl⟩
  · rintro ⟨t₀, h, rfl⟩; exact ⟨t₀, h, rfl⟩

theorem extract_shaped {pp : ProcessedPrompt} {c : Clock} {t : Task}
    (h : t ∈ extractTasks pp c) : IdShaped t ∧ DepsShaped t := by
  obtain ⟨t₀, h₀, rfl⟩ := extract_mem.mp h
  obtain ⟨hid, hdeps⟩ := base_shaped h₀
  constructor
  · obtain ⟨n, hn⟩ := hid
    exact ⟨n, by rw [establishOne_id, establishOne_type]; exact hn⟩
  · intro d hd
    obtain ⟨extra, he, hp⟩ := establishOne_deps t₀ (baseTasks pp c)
    rw [he] at hd
    rw [establishOne_type]
    rcases List.mem_append.mp hd with hd | hd
    · exact hdeps d hd
    · obtain ⟨b, hb, hbt, rfl⟩ := hp d hd
      obtain ⟨n, hn⟩ := (base_shaped hb).1
      exact ⟨b.type, n, hbt, hn⟩

/-- Edge soundness: a resolvable dependency id inside the wired collection
always follows the kind-level table. -/
theorem edge_depTable {pp : ProcessedPrompt} {c : Clock} {a b : Task}
    (ha : a ∈ extractTasks pp c) (hb : b ∈ extractTasks pp c)
    (h : b.id ∈ a.dependencies) : depTable a.type b.type = true := by
  obtain ⟨k, n, htab, hid⟩ := (extract_shaped ha).2 b.id h
  obtain ⟨m, hm⟩ := (extract_shaped hb).1
  have : k = b.type :=
    typePre_append_inj (depTable_target htab) (by rw [← hid, hm])
  rwa [this] at htab

theorem base_types (pp : ProcessedPrompt) (c : Clock) :
    (baseTasks pp c).map Task.type = kindsOf pp.tokenized := by
  unfold baseTasks kindsOf
  by_cases h₁ : requiresDocumentation pp.tokenized <;>
    by_cases h₂ : requiresTesting pp.tokenized <;>
      by_cases h₃ : requiresOptimization pp.tokenized <;>
        by_cases h₄ : requiresSecurity pp.tokenized <;>
          by_cases h₅ : requiresDeployment pp.tokenized <;>
            simp [h₁, h₂, h₃, h₄, h₅, createCodeGenerationTask,
              createDocumentationTask, createTestingTask,
              createOptimizationTask, createSecurityTask, createDeploymentTask]

theorem extract_types (pp : ProcessedPrompt) (c : Clock) :
    (extractTasks pp c).map Task.type = kindsOf pp.tokenized := by
  unfold extractTasks establishTaskDependencies
  rw [List.map_map, ← base_types pp c]
  exact List.map_congr_left fun t _ => establishOne_type t _

/-- Edge completeness: whenever the table allows `k₁ → k₂`, a task of
kind `k₁` is present, and a task of kind `k₂` is present, the wired
collection realises the edge. -/
theorem edge_exists {pp : ProcessedPrompt} {c : Clock} {k₂ : TaskType}
    {a : Task} (ha : a ∈ extractTasks pp c)
    (htab : depTable a.type k₂ = true)
    (hpres : k₂ ∈ (extractTasks pp c).map Task.type) :
    ∃ b ∈ extractTasks pp c, b.type = k₂ ∧ b.id ∈ a.dependencies := by
  obtain ⟨t₀, h₀, rfl⟩ := extract_mem.mp ha
  rw [extract_types, ← base_types pp c, List.mem_map] at hpres
  obtain ⟨b₀, hb₀, hb₀t⟩ := hpres
  rw [establishOne_type] at htab
  obtain ⟨b₁, hb₁, hb₁t, hb₁d⟩ :=
    establishOne_hit t₀ (baseTasks pp c) htab ⟨b₀, hb₀, hb₀t⟩
  refine ⟨establishOne b₁ (baseTasks pp c), extract_mem.mpr ⟨b₁, hb₁, rfl⟩,
    ?_, ?_⟩
  · rw [establishOne_type]; exact hb₁t
  · rw [establishOne_id]; exact hb₁d

/-- Kind-level characterisation of realised edges: exactly the table
edges between present kinds. -/
theorem kindEdge_iff {pp : ProcessedPrompt} {c : Clock} {k₁ k₂ : TaskType} :
    KindEdge (extractTasks pp c) k₁ k₂ ↔
      depTable k₁ k₂ = true ∧ k₁ ∈ kindsOf pp.tokenized ∧
        k₂ ∈ kindsOf pp.tokenized := by
  constructor
  · rintro ⟨a, ha, b, hb, rfl, rfl, hd⟩
    refine ⟨edge_depTable ha hb hd, ?_, ?_⟩
    · rw [← extract_types pp c]; exact List.mem_map_of_mem _ ha
    · rw [← extract_types pp c]; exact List.mem_map_of_mem _ hb
  · rintro ⟨htab, h₁, h₂⟩
    rw [← extract_types pp c, List.mem_map] at h₁
    obtain ⟨a, ha, hat⟩ := h₁
    obtain ⟨b, hb, hbt, hbd⟩ :=
      edge_exists ha (by rw [hat]; exact htab)
        (by rw [extract_types]; exact h₂)
    exact ⟨a, ha, b, hb, hat, hbt, hbd⟩

theorem addDep_desc (t : Task) (all : List Task) (k : TaskType) :
    (addDependencyIfExists t all k).description = t.description := by
  unfold addDependencyIfExists
  cases all.find? (fun x => decide (x.type = k)) with
  | none => rfl
  | some dep => by_cases h : dep.id ∈ t.dependencies <;> simp [h]

theorem addDep_ctx (t : Task) (all : List Task) (k : TaskType) :
    (addDependencyIfExists t all k).context = t.context := by
  unfold addDependencyIfExists
  cases all.find? (fun x => decide (x.type = k)) with
  | none => rfl
  | some dep => by_cases h : dep.id ∈ t.dependencies <;> simp [h]

theorem wireChain_desc (t : Task) (all : List Task) :
    ∀ ks, (wireChain t all ks).description = t.description := by
  intro ks
  induction ks generalizing t with
  | nil => rfl
  | cons k ks ih => rw [wireChain, ih, addDep_desc]

theorem wireChain_ctx (t : Task) (all : List Task) :
    ∀ ks, (wireChain t all ks).context = t.context := by
  intro ks
  induction ks generalizing t with
  | nil => rfl
  | cons k ks ih => rw [wireChain, ih, addDep_ctx]

theorem establishOne_desc (t : Task) (all : List Task) :
    (establishOne t all).description = t.description := by
  rw [establishOne_eq_wireChain, wireChain_desc]

theorem establishOne_ctx (t : Task) (all : List Task) :
    (establishOne t all).context = t.context := by
  rw [establishOne_eq_wireChain, wireChain_ctx]

/-- Everything except the id strings and the dependency lists — kind,
description, score, context — of the extracted tasks is independent of
the `Date.now()` clock. -/
theorem extract_summary_clock_free (pp : ProcessedPrompt) (c₁ c₂ : Clock) :
    (extractTasks pp c₁).map
        (fun t => (t.type, t.description, t.estimatedComplexity, t.context)) =
      (extractTasks pp c₂).map
        (fun t => (t.type, t.description, t.estimatedComplexity, t.context)) := by
  have hmap : ∀ c : Clock, (extractTasks pp c).map
      (fun t => (t.type, t.description, t.estimatedComplexity, t.context)) =
      (baseTasks pp c).map
        (fun t => (t.type, t.description, t.estimatedComplexity, t.context)) := by
    intro c
    unfold extractTasks establishTaskDependencies
    rw [List.map_map]
    refine List.map_congr_left fun t _ => ?_
    show (_, _, _, _) = (_, _, _, _)
    rw [establishOne_type, establishOne_desc, establishOne_ec, establishOne_ctx]
  rw [hmap c₁, hmap c₂]
  unfold baseTasks
  by_cases h₁ : requiresDocumentation pp.tokenized <;>
    by_cases h₂ : requiresTesting pp.tokenized <;>
      by_cases h₃ : requiresOptimization pp.tokenized <;>
        by_cases h₄ : requiresSecurity pp.tokenized <;>
          by_cases h₅ : requiresDeployment pp.tokenized <;>
            simp [h₁, h₂, h₃, h₄, h₅, createCodeGenerationTask,
              createDocumentationTask, createTestingTask,
              createOptimizationTask, createSecurityTask, createDeploymentTask]

/-! ## Claim C2 -/

/-- C2: for every processed prompt (and every clock), the task list
returned by `extractTasks` contains exactly one task of kind
`code_generation`, and that task's dependency list is empty. -/
theorem c2_unique_code_generation_root (pp : ProcessedPrompt) (c : Clock) :
    ((extractTasks pp c).map Task.type).count TaskType.code_generation = 1 ∧
    ∀ t ∈ extractTasks pp c, t.type = TaskType.code_generation →
      t.dependencies = [] := by
  constructor
  · rw [extract_types]
    unfold kindsOf
    by_cases h₁ : requiresDocumentation pp.tokenized <;>
      by_cases h₂ : requiresTesting pp.tokenized <;>
        by_cases h₃ : requiresOptimization pp.tokenized <;>
          by_cases h₄ : requiresSecurity pp.tokenized <;>
            by_cases h₅ : requiresDeployment pp.tokenized <;>
              simp [h₁, h₂, h₃, h₄, h₅]
  · intro t ht htype
    obtain ⟨t₀, h₀, rfl⟩ := extract_mem.mp ht
    rw [establishOne_type] at htype
    have hone : establishOne t₀ (baseTasks pp c) = t₀ := by
      unfold establishOne
      rw [htype]
    rw [hone]
    exact base_cg_deps h₀ htype

theorem c2_witness :
    ((extractTasks ppSec cId).map Task.type).count TaskType.code_generation = 1 ∧
    ((extractTasks ppSec cId).get ⟨0, by decide⟩).dependencies = [] :=
  ⟨(c2_unique_code_generation_root ppSec cId).1,
   (c2_unique_code_generation_root ppSec cId).2 _
     (List.get_mem (extractTasks ppSec cId) 0 (by decide)) (by decide)⟩

/-! ## Claim C3 -/

/-- C3: for every processed prompt (and every clock), the dependency
relation on the returned tasks is acyclic — no task depends on itself
directly or transitively — and every task other than the
`code_generation` root transitively depends on the root. -/
theorem c3_acyclic_and_rooted (pp : ProcessedPrompt) (c : Clock) :
    (∀ a, ¬ Relation.TransGen (TaskDep (extractTasks pp c)) a a) ∧
    (∀ a ∈ extractTasks pp c, a.type ≠ TaskType.code_generation →
      ∃ b ∈ extractTasks pp c, b.type = TaskType.code_generation ∧
        Relation.TransGen (TaskDep (extractTasks pp c)) a b) := by
  have hstep : ∀ x y, TaskDep (extractTasks pp c) x y →
      rank y.type < rank x.type := by
    rintro x y ⟨hx, hy, hd⟩
    exact depTable_rank (edge_depTable hx hy hd)
  have htrans : ∀ x y, Relation.TransGen (TaskDep (extractTasks pp c)) x y →
      rank y.type < rank x.type := by
    intro x y h
    induction h with
    | single h => exact hstep _ _ h
    | tail _ h₂ ih => exact lt_trans (hstep _ _ h₂) ih
  constructor
  · intro a h
    exact lt_irrefl _ (htrans a a h)
  · intro a ha hne
    have hpres : TaskType.code_generation ∈ (extractTasks pp c).map Task.type := by
      rw [extract_types]
      simp [kindsOf]
    obtain ⟨b, hb, hbt, hbd⟩ := edge_exists ha (depTable_root hne) hpres
    exact ⟨b, hb, hbt, Relation.TransGen.single ⟨ha, hb, hbd⟩⟩

theorem c3_witness :
    (¬ Relation.TransGen (TaskDep (extractTasks ppSec cId)) dummyTask dummyTask) ∧
    ∃ b ∈ extractTasks ppSec cId, b.type = TaskType.code_generation ∧
      Relation.TransGen (TaskDep (extractTasks ppSec cId))
        ((extractTasks ppSec cId).get ⟨1, by decide⟩) b :=
  ⟨(c3_acyclic_and_rooted ppSec cId).1 dummyTask,
   (c3_acyclic_and_rooted ppSec cId).2 _
     (List.get_mem (extractTasks ppSec cId) 1 (by decide)) (by decide)⟩

/-! ## Claim C1 -/

/-- C1 fails on the code: for the prompt "make it secure" — a security
keyword and no performance keyword — and for EVERY clock, the emitted
security task keeps the pre-filled dependency id `opt_<timestamp>` even
though no optimization task exists, so that id resolves to no task in the
returned collection (and the security task does not depend only on the
`code_generation` task). -/
theorem c1_dangling_optimization_dep (c : Clock) :
    (∃ a ∈ extractTasks ppSec c, a.type = TaskType.security ∧
      ("opt_" ++ toString (c 3)) ∈ a.dependencies) ∧
    ∀ b ∈ extractTasks ppSec c, b.id ≠ "opt_" ++ toString (c 3) := by
  have hd : requiresDocumentation tpSec = false := by decide
  have ht : requiresTesting tpSec = false := by decide
  have ho : requiresOptimization tpSec = false := by decide
  have hs : requiresSecurity tpSec = true := by decide
  have hdep : requiresDeployment tpSec = false := by decide
  have htz : ppSec.tokenized = tpSec := rfl
  have hbase : baseTasks ppSec c =
      [createCodeGenerationTask ppSec c 0, createSecurityTask ppSec c 1] := by
    unfold baseTasks
    rw [htz]
    simp [hd, ht, ho, hs, hdep]
  constructor
  · refine ⟨establishOne (createSecurityTask ppSec c 1) (baseTasks ppSec c),
      extract_mem.mpr ⟨createSecurityTask ppSec c 1, by rw [hbase]; simp, rfl⟩,
      by rw [establishOne_type]; rfl, ?_⟩
    obtain ⟨extra, he, -⟩ :=
      establishOne_deps (createSecurityTask ppSec c 1) (baseTasks ppSec c)
    rw [he]
    refine List.mem_append_left _ ?_
    show _ ∈ ["code_gen_" ++ toString (c 2), "opt_" ++ toString (c 3)]
    simp
  · intro b hb
    obtain ⟨b₀, hb₀, rfl⟩ := extract_mem.mp hb
    rw [establishOne_id]
    rw [hbase] at hb₀
    rcases List.mem_cons.mp hb₀ with rfl | hb₀
    · exact append_ne_of_head_ne _ _ rfl rfl (by decide)
    rcases List.mem_singleton.mp hb₀ with rfl
    exact append_ne_of_head_ne _ _ rfl rfl (by decide)

/-! ## Claim C8 -/

/-- C8: the decomposition core is deterministic up to task ids.  The
interpreter is a pure function of the lexical analysis, so two runs on the
same text produce equal `ProcessedPrompt`s; and for any two clocks
(the only source of nondeterminism, behind `Date.now()`), the extracted
task lists agree on everything except id strings — kinds, descriptions,
scores and contexts coincide position by position, and exactly the same
kind-level dependency edges are realised. -/
theorem c8_deterministic_up_to_ids (prompt : String) (tz : TokenizedPrompt)
    (c₁ c₂ : Clock) :
    processPrompt prompt tz = processPrompt prompt tz ∧
    (extractTasks (processPrompt prompt tz) c₁).map
        (fun t => (t.type, t.description, t.estimatedComplexity, t.context)) =
      (extractTasks (processPrompt prompt tz) c₂).map
        (fun t => (t.type, t.description, t.estimatedComplexity, t.context)) ∧
    ∀ k₁ k₂, KindEdge (extractTasks (processPrompt prompt tz) c₁) k₁ k₂ ↔
      KindEdge (extractTasks (processPrompt prompt tz) c₂) k₁ k₂ := by
  refine ⟨rfl, extract_summary_clock_free _ c₁ c₂, fun k₁ k₂ => ?_⟩
  rw [kindEdge_iff, kindEdge_iff]

theorem c8_witness :
    (extractTasks (processPrompt "make it secure" tpSec) cId).map
        (fun t => (t.type, t.description, t.estimatedComplexity, t.context)) =
      (extractTasks (processPrompt "make it secure" tpSec) (fun k => k + 7)).map
        (fun t => (t.type, t.description, t.estimatedComplexity, t.context)) ∧
    (KindEdge (extractTasks (processPrompt "make it secure" tpSec) cId)
        TaskType.security TaskType.code_generation ↔
      KindEdge (extractTasks (processPrompt "make it secure" tpSec) (fun k => k + 7))
        TaskType.security TaskType.code_generation) :=
  ⟨(c8_deterministic_up_to_ids "make it secure" tpSec cId (fun k => k + 7)).2.1,
   (c8_deterministic_up_to_ids "make it secure" tpSec cId (fun k => k + 7)).2.2
     TaskType.security TaskType.code_generation⟩

/-! ## Claim C5 -/

/-- C5 amended: for every tokenized prompt, the complexity and priority
values both lie in the interval [1,10].  Priority is an integer (the model
computes it in `ℤ`), but complexity is NOT always an integer — it
accrues 0.5 per entity, see the counterexample — so the claim's
"both integers" is weakened to the bounds. -/
theorem c5_scores_bounded (tp : TokenizedPrompt) :
    1 ≤ calculateComplexity tp ∧ calculateComplexity tp ≤ 10 ∧
    1 ≤ calculatePriority tp ∧ calculatePriority tp ≤ 10 :=
  ⟨le_min (le_max_right _ _) (by norm_num),
   min_le_right _ _,
   le_min (le_max_right _ _) (by norm_num),
   min_le_right _ _⟩

/-- C5 counterexample: three entities and no complexity keyword give a
complexity of 1.5, which is not an integer. -/
theorem c5_non_integer_complexity :
    calculateComplexity tpHalf = 3 / 2 ∧
    ¬ ∃ n : ℤ, calculateComplexity tpHalf = (n : ℚ) := by
  have h : calculateComplexity tpHalf = 3 / 2 := by
    simp only [calculateComplexity, tpHalf, entityValues]
    norm_num [max_def, min_def]
  refine ⟨h, ?_⟩
  rintro ⟨n, hn⟩
  rw [h] at hn
  have h3 : (3 : ℚ) = 2 * (n : ℚ) := by linarith
  have h3' : (3 : ℤ) = 2 * n := by exact_mod_cast h3
  omega

/-! ## Claim C7 -/

/-- C7: `validatePrompt` reports `isValid = false` — and appends exactly
one error — precisely when the prompt is shorter than 10 characters; a
prompt longer than 1000 characters only receives a warning and does not
affect validity; all issues are data in the returned record (the model is
a total function, nothing is thrown). -/
theorem c7_validate_prompt (prompt : String) :
    ((validatePrompt prompt).isValid = false ↔ prompt.length < 10) ∧
    ((validatePrompt prompt).errors.length =
      if prompt.length < 10 then 1 else 0) ∧
    (1000 < prompt.length →
      "Prompt is very long. Consider breaking it into smaller requests." ∈
        (validatePrompt prompt).warnings) := by
  unfold validatePrompt
  split_ifs <;> (try simp_all) <;> (try (split_ifs <;> simp_all))

theorem c7_witness :
    ((validatePrompt longPrompt).isValid = false ↔ longPrompt.length < 10) ∧
    "Prompt is very long. Consider breaking it into smaller requests." ∈
      (validatePrompt longPrompt).warnings :=
  ⟨(c7_validate_prompt longPrompt).1,
   (c7_validate_prompt longPrompt).2.2 (by
    have h : longPrompt.length = 1001 := by
      show (List.replicate 1001 'a').length = 1001
      rw [List.length_replicate]
    omega)⟩

/-! ## Claim C10 -/

/-- C10: `calculatePriority` only ever returns 3, 5, or 7 — the clamp to
[1,10] never binds — and, for token lists produced by a word tokenizer
(no token contains a space), the low-priority adjustment is governed by
the single-token keywords `experimental` and `optional` alone: the
multi-word keyword `nice to have` can never match a token. -/
theorem c10_priority_values (tp : TokenizedPrompt) :
    (calculatePriority tp = 3 ∨ calculatePriority tp = 5 ∨
      calculatePriority tp = 7) ∧
    ((∀ t ∈ tp.tokens, ' ' ∉ t.data) →
      (tp.tokens.any (fun token => lowPriorityKeywords.contains (lowerStr token)) =
       tp.tokens.any (fun token =>
         lowerStr token == "experimental" || lowerStr token == "optional"))) := by
  constructor
  · simp only [calculatePriority]
    split_ifs <;> decide
  · intro hsp
    rw [Bool.eq_iff_iff, List.any_eq_true, List.any_eq_true]
    constructor
    · rintro ⟨tok, htok, hc⟩
      refine ⟨tok, htok, ?_⟩
      have hm : lowerStr tok ∈ lowPriorityKeywords := List.elem_iff.mp hc
      have hns : lowerStr tok ≠ "nice to have" :=
        lowerStr_ne_multiword (hsp tok htok)
      simp only [lowPriorityKeywords, List.mem_cons, List.mem_singleton,
        List.not_mem_nil, or_false] at hm
      rcases hm with h | h | h
      · simp [h]
      · simp [h]
      · exact absurd h hns
    · rintro ⟨tok, htok, hc⟩
      refine ⟨tok, htok, List.elem_iff.mpr ?_⟩
      rcases Bool.or_eq_true _ _ ▸ hc with h | h
      · rw [eq_of_beq h]; exact List.mem_cons_self _ _
      · rw [eq_of_beq h]
        exact List.mem_cons_of_mem _ (List.mem_cons_self _ _)

theorem c10_witness :
    (calculatePriority tpUrgent = 3 ∨ calculatePriority tpUrgent = 5 ∨
      calculatePriority tpUrgent = 7) ∧
    (tpUrgent.tokens.any (fun token => lowPriorityKeywords.contains (lowerStr token)) =
     tpUrgent.tokens.any (fun token =>
       lowerStr token == "experimental" || lowerStr token == "optional")) :=
  ⟨(c10_priority_values tpUrgent).1,
   (c10_priority_values tpUrgent).2 (by decide)⟩

/-! ## Claim C4 -/

/-- C4 fails on the code: with technology entities `["python",
"javascript"]` the first entity matching the language list is `python`,
yet `extractCodeContext` answers `javascript`, because `find?` iterates
the lookup list, not the entity sequence. -/
theorem c4_entity_order_counterexample :
    (extractCodeContext tpLang).language = some "javascript" ∧
    specEntityLanguage tpLang = some "python" ∧
    (extractCodeContext tpLang).language ≠ specEntityLanguage tpLang :=
  ⟨by decide, by decide, by decide⟩

/-- C4 amended: `language` (and likewise `framework` and `platform`) is
the first entry of the corresponding fixed lookup list — in lookup-list
order, not entity order — that case-insensitively matches some technology
entity; entity order is only consulted through membership. -/
theorem c4_lookup_list_order (tp : TokenizedPrompt) :
    (∀ l, (extractCodeContext tp).language = some l ↔
      (languageMatch (tp.entities.technologies.map lowerStr) l = true ∧
       ∃ pre post, languages = pre ++ l :: post ∧
         ∀ x ∈ pre, languageMatch (tp.entities.technologies.map lowerStr) x = false)) ∧
    (∀ f, (extractCodeContext tp).framework = some f ↔
      ((tp.entities.technologies.map lowerStr).contains f = true ∧
       ∃ pre post, frameworks = pre ++ f :: post ∧
         ∀ x ∈ pre, (tp.entities.technologies.map lowerStr).contains x = false)) ∧
    (∀ p, (extractCodeContext tp).platform = some p ↔
      ((tp.entities.technologies.map lowerStr).contains p = true ∧
       ∃ pre post, platforms = pre ++ p :: post ∧
         ∀ x ∈ pre, (tp.entities.technologies.map lowerStr).contains x = false)) := by
  refine ⟨fun l => ?_, fun f => ?_, fun p => ?_⟩
  · have h : (extractCodeContext tp).language = languages.find?
        (fun lang => languageMatch (tp.entities.technologies.map lowerStr) lang) := rfl
    rw [h, List.find?_eq_some]
    simp only [Bool.not_eq_true']
  · have h : (extractCodeContext tp).framework = frameworks.find?
        (fun fw => (tp.entities.technologies.map lowerStr).contains fw) := rfl
    rw [h, List.find?_eq_some]
    simp only [Bool.not_eq_true']
  · have h : (extractCodeContext tp).platform = platforms.find?
        (fun pf => (tp.entities.technologies.map lowerStr).contains pf) := rfl
    rw [h, List.find?_eq_some]
    simp only [Bool.not_eq_true']

theorem c4_witness :
    languageMatch (tpLang.entities.technologies.map lowerStr) "javascript" = true ∧
    ∃ pre post, languages = pre ++ "javascript" :: post ∧
      ∀ x ∈ pre, languageMatch (tpLang.entities.technologies.map lowerStr) x = false :=
  ((c4_lookup_list_order tpLang).1 "javascript").mp (by decide)

/-! ## Claim C6 -/

/-- C6: constraint scanning works on the lower-cased space-joined token
text; for each trigger phrase (taken in the fixed order), if the phrase
occurs — `i` being its first occurrence — and a `'.'` occurs at or after
`i` — `e` being the first such position — the trimmed span between the
end of the phrase and that `'.'` becomes one constraint; if the phrase
never occurs, or no `'.'` follows it, the phrase contributes nothing and
the function still returns (no error). -/
theorem c6_constraint_extraction (tp : TokenizedPrompt) :
    ((extractCodeContext tp).constraints =
      constraintPhrases.filterMap (constraintFor (joinTokensLower tp.tokens))) ∧
    ∀ phrase : String, phrase.data ≠ [] →
      ((∀ i, ¬ OccursAt (joinTokensLower tp.tokens) phrase.data i) →
        constraintFor (joinTokensLower tp.tokens) phrase = none) ∧
      ∀ i, OccursAt (joinTokensLower tp.tokens) phrase.data i →
        (∀ j, j < i → ¬ OccursAt (joinTokensLower tp.tokens) phrase.data j) →
        ((∀ j, i ≤ j → ¬ OccursAt (joinTokensLower tp.tokens) ['.'] j) →
          constraintFor (joinTokensLower tp.tokens) phrase = none) ∧
        ∀ e, i ≤ e → OccursAt (joinTokensLower tp.tokens) ['.'] e →
          (∀ j, j < e → i ≤ j → ¬ OccursAt (joinTokensLower tp.tokens) ['.'] j) →
          constraintFor (joinTokensLower tp.tokens) phrase =
            some (String.mk (jsTrim
              (((joinTokensLower tp.tokens).drop (i + phrase.data.length)).take
                (e - (i + phrase.data.length))))) := by
  refine ⟨rfl, fun phrase hph => ⟨fun hnone => ?_, fun i hocc hleast => ?_⟩⟩
  · have h : jsIndexOf (joinTokensLower tp.tokens) phrase.data 0 = none :=
      (jsIndexOf_eq_none hph).mpr (fun j _ => hnone j)
    simp [constraintFor, h]
  · have hidx : jsIndexOf (joinTokensLower tp.tokens) phrase.data 0 = some i :=
      (jsIndexOf_eq_some hph).mpr
        ⟨Nat.zero_le _, hocc, fun j _ hj => hleast j hj⟩
    constructor
    · intro hnd
      have h2 : jsIndexOf (joinTokensLower tp.tokens) ['.'] i = none :=
        (jsIndexOf_eq_none (by decide)).mpr (fun j hj => hnd j hj)
      simp [constraintFor, hidx, h2]
    · intro e hie hocce hleaste
      have h2 : jsIndexOf (joinTokensLower tp.tokens) ['.'] i = some e :=
        (jsIndexOf_eq_some (by decide)).mpr
          ⟨hie, hocce, fun j hj₁ hj₂ => hleaste j hj₂ hj₁⟩
      simp [constraintFor, hidx, h2]

theorem c6_witness :
    constraintFor (joinTokensLower tpMust.tokens) "must be" =
      some (String.mk (jsTrim
        (((joinTokensLower tpMust.tokens).drop (3 + "must be".data.length)).take
          (16 - (3 + "must be".data.length))))) :=
  ((((c6_constraint_extraction tpMust).2 "must be" (by decide)).2
      3 (by decide) (by decide)).2) 16 (by decide) (by decide) (by decide)

/-! ## Claim C9 -/

/-- Any keyword occurring as a substring of the lower-cased joined token
text makes `containsKeywords` fire. -/
theorem containsKeywords_of_substr {tp : TokenizedPrompt} {kws : List String}
    {kw : String} (hkw : kw ∈ kws)
    (hsub : SubstrOf (lowerStr kw) (joinSp (tp.tokens.map lowerStr))) :
    containsKeywords tp kws = true := by
  show (kws.any fun keyword =>
    (tp.tokens.map lowerStr).contains (lowerStr keyword) ||
      strContains (joinSp (tp.tokens.map lowerStr)) (lowerStr keyword)) = true
  rw [List.any_eq_true]
  refine ⟨kw, hkw, ?_⟩
  rw [Bool.or_eq_true]
  exact Or.inr (strContains_iff.mpr hsub)

/-- C9: every task-trigger predicate fires whenever one of its keywords
occurs as a contiguous substring of the lower-cased space-joined token
text — not only as a whole token; in particular any prompt whose tokens
include the word `latest` triggers the testing task, because `test` is a
substring of `latest`. -/
theorem c9_substring_triggers (tp : TokenizedPrompt) :
    (∀ kw ∈ docKeywords,
      SubstrOf (lowerStr kw) (joinSp (tp.tokens.map lowerStr)) →
        requiresDocumentation tp = true) ∧
    (∀ kw ∈ testKeywords,
      SubstrOf (lowerStr kw) (joinSp (tp.tokens.map lowerStr)) →
        requiresTesting tp = true) ∧
    (∀ kw ∈ optKeywords,
      SubstrOf (lowerStr kw) (joinSp (tp.tokens.map lowerStr)) →
        requiresOptimization tp = true) ∧
    (∀ kw ∈ securityKeywords,
      SubstrOf (lowerStr kw) (joinSp (tp.tokens.map lowerStr)) →
        requiresSecurity tp = true) ∧
    (∀ kw ∈ deployKeywords,
      SubstrOf (lowerStr kw) (joinSp (tp.tokens.map lowerStr)) →
        requiresDeployment tp = true) ∧
    ("latest" ∈ tp.tokens → requiresTesting tp = true) := by
  refine ⟨fun kw hkw hsub => ?_, fun kw hkw hsub => ?_, fun kw hkw hsub => ?_,
    fun kw hkw hsub => ?_, fun kw hkw hsub => ?_, fun hl => ?_⟩
  · unfold requiresDocumentation
    rw [Bool.or_eq_true]
    exact Or.inl (containsKeywords_of_substr hkw hsub)
  · unfold requiresTesting
    rw [Bool.or_eq_true]
    exact Or.inl (containsKeywords_of_substr hkw hsub)
  · unfold requiresOptimization
    exact containsKeywords_of_substr hkw hsub
  · unfold requiresSecurity
    rw [Bool.or_eq_true]
    exact Or.inl (containsKeywords_of_substr hkw hsub)
  · unfold requiresDeployment
    exact containsKeywords_of_substr hkw hsub
  · have hmem : lowerStr "latest" ∈ tp.tokens.map lowerStr :=
      List.mem_map_of_mem _ hl
    have h2 : SubstrOf "latest" (joinSp (tp.tokens.map lowerStr)) := by
      rw [show ("latest" : String) = lowerStr "latest" from by decide]
      exact substrOf_joinSp hmem
    have h3 : SubstrOf "test" "latest" := ⟨['l', 'a'], [], by decide⟩
    have h4 : SubstrOf (lowerStr "test") (joinSp (tp.tokens.map lowerStr)) := by
      rw [show lowerStr "test" = "test" from by decide]
      exact h3.trans h2
    unfold requiresTesting
    rw [Bool.or_eq_true]
    exact Or.inl (containsKeywords_of_substr (by decide) h4)

theorem c9_witness : requiresTesting tpLatest = true :=
  (c9_substring_triggers tpLatest).2.2.2.2.2 (by decide)

end Coder
